import Mathlib

/-!
Verification of the shavar `sources.py` module: the refresh-gated content
cache (`Source`, `FileSource`, `S3FileSource`).

Python strings are modelled as `List Char` (`PyStr`); machine time values
(`int(time.time())`) are arbitrary-precision integers in Python, hence `Int`
here, passed in explicitly at each call site that samples the clock.  Each
Python method that can both mutate `self` and raise is modelled as a function
`state → Except SrcErr result × state`: the returned state is the state of
`self` at the moment the method returns or raises (Python exceptions do not
roll back attribute assignments).  External collaborators (the filesystem,
the S3 client, the `parse_file_source` parser) are modelled as explicit
environment values handed to the methods that consult them.
-/

/-- Python `str`, modelled as a list of characters. -/
abbrev PyStr := List Char

/-! ### posixpath (Python standard library), the parts used by `S3FileSource.__init__` -/

/-- Python `p.startswith(pre)` for strings. -/
def pyStartsWith (p pre : PyStr) : Bool := List.isPrefixOf pre p

/-- Python `p.endswith(suf)` for strings. -/
def pyEndsWith (p suf : PyStr) : Bool := List.isSuffixOf suf p

/-- Python `p.split('/')`. -/
def splitOnSlash : PyStr → List PyStr
  | [] => [[]]
  | c :: rest =>
    let r := splitOnSlash rest
    if c = '/' then [] :: r
    else
      match r with
      | [] => [[c]]
      | a :: more => (c :: a) :: more

/-- Python `'/'.join(comps)`. -/
def joinSlash : List PyStr → PyStr
  | [] => []
  | [x] => x
  | x :: xs => x ++ '/' :: joinSlash xs

/-- The component loop of `posixpath.normpath`: skips empty and `.` components,
appends ordinary components, and pops on `..` (except at an unrooted start or
after an unresolved `..`). -/
def normpathComps (initialSlashes : Nat) : List PyStr → List PyStr → List PyStr
  | acc, [] => acc
  | acc, comp :: rest =>
    if comp = [] ∨ comp = ['.'] then
      normpathComps initialSlashes acc rest
    else if comp ≠ ['.', '.'] ∨ (initialSlashes = 0 ∧ acc = []) ∨
            acc.getLast? = some ['.', '.'] then
      normpathComps initialSlashes (acc ++ [comp]) rest
    else
      normpathComps initialSlashes acc.dropLast rest

/-- `posixpath.normpath`: collapse duplicate separators and `.`/`..` segments;
POSIX allows exactly two leading slashes to survive normalization. -/
def posixNormpath (path : PyStr) : PyStr :=
  if path = [] then ['.']
  else
    let initialSlashes : Nat :=
      if pyStartsWith path ['/'] then
        if pyStartsWith path ['/', '/'] ∧ ¬ pyStartsWith path ['/', '/', '/'] then 2 else 1
      else 0
    let comps := normpathComps initialSlashes [] (splitOnSlash path)
    let res := List.replicate initialSlashes '/' ++ joinSlash comps
    if res = [] then ['.'] else res

/-- `posixpath.split`: `(head, tail)` where `tail` is everything after the last
slash and `head` is the rest, with trailing slashes stripped from `head` unless
`head` consists only of slashes. -/
def posixSplit (p : PyStr) : PyStr × PyStr :=
  let tl := (p.reverse.takeWhile (fun c => c ≠ '/')).reverse
  let hd := p.take (p.length - tl.length)
  let hd2 :=
    if hd ≠ [] ∧ hd.any (fun c => c ≠ '/') then
      (hd.reverse.dropWhile (fun c => c = '/')).reverse
    else hd
  (hd2, tl)

/-- One step of `posixpath.join`: an absolute component restarts the result. -/
def posixJoinStep (path b : PyStr) : PyStr :=
  if pyStartsWith b ['/'] then b
  else if path = [] ∨ pyEndsWith path ['/'] then path ++ b
  else path ++ '/' :: b

/-- `posixpath.join(*elems)` (never applied to an empty argument list by the
code under study, since `posixpath.split` always yields a pair). -/
def posixJoin : List PyStr → PyStr
  | [] => []
  | a :: rest => rest.foldl posixJoinStep a

/-- `S3FileSource.__init__` key computation: `elems` is the *pair* returned by
`posixpath.split(posixpath.normpath(path))` turned into a two-element list; the
`while` loop pops leading elements equal to `'/'` (it can pop at most one, the
head, since the tail of a split never contains a slash); the survivors are
rejoined with `posixpath.join`. -/
def S3FileSource.key_name (path : PyStr) : PyStr :=
  let sp := posixSplit (posixNormpath path)
  posixJoin (List.dropWhile (fun e => e = ['/']) [sp.1, sp.2])

/-! ### Errors raised by the module (shavar exceptions and Python built-ins) -/

/-- Exceptions that can escape the methods of `sources.py`: shavar's
`NoDataError` and `ParseError`, plus the Python built-ins the code can hit
(`KeyError` from a dict subscript in `fetch`, `AttributeError` from an
attribute access on `None`, `OSError` from `os.stat` on a missing file,
`TypeError` from subscripting `None` in `list_chunks`). -/
inductive SrcErr where
  | noData (msg : PyStr)
  | parseError (msg : PyStr)
  | keyError (k : Nat)
  | attributeError
  | osError
  | typeError
deriving Repr, DecidableEq

/-! ### Data model -/

/-- The chunk collection produced by the external parser collaborator
(`parse_file_source`): a dict of add chunks, a dict of sub chunks (modelled as
association lists keyed by chunk number), and an opaque prefix-lookup
operation.  `α`/`β` are the add/sub record types, `π`/`ρ` the query/result
types of the prefix lookup. -/
structure ChunkCollection (α β π ρ : Type) where
  adds : List (Nat × α)
  subs : List (Nat × β)
  find_prefix : π → ρ

/-- `self.chunk_index`: Python `{'adds': set(...keys), 'subs': set(...keys)}`,
with each set modelled by the list of keys of the corresponding dict. -/
structure ChunkIndex where
  adds : List Nat
  subs : List Nat
deriving Repr, DecidableEq

/-- The mutable attributes of a `Source` set by `Source.__init__`.
`current_etag` is the extra attribute of the `S3FileSource` subclass
(set by `S3FileSource.__init__`), flattened into the one record; the
base-class methods never read or write it.  The unused `self.prefixes`
attribute (assigned `None` once and never touched again) is omitted. -/
structure SourceState (α β π ρ : Type) where
  interval : Int
  last_refresh : Int
  last_check : Int
  chunks : Option (ChunkCollection α β π ρ)
  chunk_index : Option ChunkIndex
  current_etag : Option PyStr

variable {α β π ρ : Type}

/-- `Source.__init__` (and `S3FileSource.__init__` for `current_etag`). -/
def Source.init (interval : Int) : SourceState α β π ρ :=
  { interval := interval, last_refresh := 0, last_check := 0,
    chunks := none, chunk_index := none, current_etag := none }

/-! ### Source methods -/

/-- `Source._populate_chunks(fp, parser_func)`: `parsed` is the result of the
external `parser_func(fp)` call (the parser either returns a collection or
raises `ParseError e`); `t1` and `t2` are the two separate `int(time.time())`
samples; `path` is `self.url.path`, used in the re-wrapped error message.
If the parser raises, no attribute has been assigned yet, so the state is
returned unchanged alongside the re-raised `ParseError`. -/
def Source.populate_chunks (t1 t2 : Int) (path : PyStr)
    (parsed : Except PyStr (ChunkCollection α β π ρ))
    (s : SourceState α β π ρ) : Except SrcErr Unit × SourceState α β π ρ :=
  match parsed with
  | .error e =>
    (.error (.parseError ("Error parsing \"".toList ++ path ++ "\": ".toList ++ e)), s)
  | .ok c =>
    (.ok (), { s with
        chunks := some c,
        last_check := t1,
        last_refresh := t2,
        chunk_index := some { adds := c.adds.map Prod.fst,
                              subs := c.subs.map Prod.fst } })

/-- `Source.refresh()`: `now` is `int(time.time())`; `needs_refresh` and
`load` are the (subclass-overridable) methods, passed explicitly. -/
def Source.refresh (now : Int)
    (needs_refresh : SourceState α β π ρ → Except SrcErr Bool)
    (load : SourceState α β π ρ → Except SrcErr Unit × SourceState α β π ρ)
    (s : SourceState α β π ρ) : Except SrcErr Bool × SourceState α β π ρ :=
  if now - s.interval ≥ s.last_check then
    match needs_refresh { s with last_check := now } with
    | .error e => (.error e, { s with last_check := now })
    | .ok true =>
      match load { s with last_check := now } with
      | (.error e, s2) => (.error e, s2)
      | (.ok _, s2) => (.ok true, s2)
    | .ok false => (.ok false, { s with last_check := now })
  else
    (.ok false, s)

/-- `Source.needs_refresh()`: the base-class default, always `False`. -/
def Source.needs_refresh (_ : SourceState α β π ρ) : Except SrcErr Bool :=
  .ok false

/-- The lookup loop of `Source.fetch`: Python
`for chunk_num in ks: out.append(d[chunk_num])`, which raises `KeyError` at
the first requested number missing from the dict. -/
def dictGetAll (d : List (Nat × γ)) : List Nat → Except SrcErr (List γ)
  | [] => .ok []
  | k :: ks =>
    match d.lookup k with
    | none => .error (.keyError k)
    | some v =>
      match dictGetAll d ks with
      | .error e => .error e
      | .ok vs => .ok (v :: vs)

/-- `Source.fetch(adds, subs)`: runs `refresh()` first, then builds the two
record lists by dict subscripting.  Subscripting `self.chunks.adds` when
`self.chunks` is `None` raises `AttributeError`. -/
def Source.fetch (now : Int)
    (needs_refresh : SourceState α β π ρ → Except SrcErr Bool)
    (load : SourceState α β π ρ → Except SrcErr Unit × SourceState α β π ρ)
    (adds subs : List Nat)
    (s : SourceState α β π ρ) : Except SrcErr (List α × List β) × SourceState α β π ρ :=
  match Source.refresh now needs_refresh load s with
  | (.error e, s1) => (.error e, s1)
  | (.ok _, s1) =>
    match s1.chunks with
    | none => (.error .attributeError, s1)
    | some c =>
      match dictGetAll c.adds adds with
      | .error e => (.error e, s1)
      | .ok la =>
        match dictGetAll c.subs subs with
        | .error e => (.error e, s1)
        | .ok ls => (.ok (la, ls), s1)

/-- `Source.list_chunks()`: runs `refresh()` first, then returns the two sets
of `self.chunk_index`; subscripting a `None` index raises `TypeError`. -/
def Source.list_chunks (now : Int)
    (needs_refresh : SourceState α β π ρ → Except SrcErr Bool)
    (load : SourceState α β π ρ → Except SrcErr Unit × SourceState α β π ρ)
    (s : SourceState α β π ρ) : Except SrcErr (List Nat × List Nat) × SourceState α β π ρ :=
  match Source.refresh now needs_refresh load s with
  | (.error e, s1) => (.error e, s1)
  | (.ok _, s1) =>
    match s1.chunk_index with
    | none => (.error .typeError, s1)
    | some ci => (.ok (ci.adds, ci.subs), s1)

/-- `Source.find_prefix(prefix)`: delegates to the loaded collection without
any refresh; the only failure is the attribute access on a `None`
`self.chunks`.  It takes no clock sample and no backend environment. -/
def Source.find_prefix (p : π) (s : SourceState α β π ρ) :
    Except SrcErr ρ × SourceState α β π ρ :=
  match s.chunks with
  | none => (.error .attributeError, s)
  | some c => (.ok ( ChunkCollection.find_prefix c p), s)

/-! ### FileSource -/

/-- The filesystem environment consulted by `FileSource`, at the granularity
the code uses it: `file_exists` models `os.path.exists(self.url.path)` (and a
successful `os.stat`), `st_mtime` models `int(os.stat(self.url.path).st_mtime)`
(already truncated to whole seconds), and `parsed` models the result of
`parse_file_source` applied to the opened byte stream. -/
structure FileEnv (α β π ρ : Type) where
  file_exists : Bool
  st_mtime : Int
  parsed : Except PyStr (ChunkCollection α β π ρ)

/-- `FileSource.load()`: `NoDataError` when the file is absent, otherwise
`_populate_chunks` on the opened stream. -/
def FileSource.load (t1 t2 : Int) (path : PyStr) (env : FileEnv α β π ρ)
    (s : SourceState α β π ρ) : Except SrcErr Unit × SourceState α β π ρ :=
  if env.file_exists then
    Source.populate_chunks t1 t2 path env.parsed s
  else
    (.error (.noData ("Known list, no data found: \"".toList ++ path ++ "\"".toList)), s)

/-- `FileSource.needs_refresh()`: `False` iff the file's (truncated)
modification time is at most `self.last_refresh`; `os.stat` on a missing file
raises `OSError`. -/
def FileSource.needs_refresh (env : FileEnv α β π ρ)
    (s : SourceState α β π ρ) : Except SrcErr Bool :=
  if env.file_exists then
    if env.st_mtime ≤ s.last_refresh then .ok false else .ok true
  else .error .osError

/-! ### S3FileSource -/

/-- An S3 key object as returned by `bucket.get_key`: its etag, and the result
of `parse_file_source` on its downloaded content (the temporary file, rewound
to the start before parsing). -/
structure S3Key (α β π ρ : Type) where
  etag : PyStr
  parsed : Except PyStr (ChunkCollection α β π ρ)

/-- The S3 backend environment: `key` models `self._get_key()` —
`none` when the bucket reports no object under the key name. -/
structure S3Env (α β π ρ : Type) where
  key : Option (S3Key α β π ρ)

/-- `S3FileSource.load()`: `NoDataError` (mentioning `self.source_url`) when
the key is absent; otherwise `_populate_chunks` on the downloaded content and,
only after it succeeds, `self.current_etag = s3key.etag`. -/
def S3FileSource.load (t1 t2 : Int) (path source_url : PyStr) (env : S3Env α β π ρ)
    (s : SourceState α β π ρ) : Except SrcErr Unit × SourceState α β π ρ :=
  match env.key with
  | none =>
    (.error (.noData ("No chunk file found at \"".toList ++ source_url ++ "\"".toList)), s)
  | some k =>
    match Source.populate_chunks t1 t2 path k.parsed s with
    | (.error e, s1) => (.error e, s1)
    | (.ok u, s1) => (.ok u, { s1 with current_etag := some k.etag })

/-- `S3FileSource.needs_refresh()`: `False` iff the backend's current etag
equals `self.current_etag` (a Python `str == None` comparison is `False`, so a
`None` `current_etag` never equals a reported etag); `s3key.etag` on a `None`
key raises `AttributeError`. -/
def S3FileSource.needs_refresh (env : S3Env α β π ρ)
    (s : SourceState α β π ρ) : Except SrcErr Bool :=
  match env.key with
  | none => .error .attributeError
  | some k =>
    if some k.etag = s.current_etag then .ok false else .ok true

/-! ### Derived notions used by the stated properties -/

/-- Consistency of the derived index with the loaded collection: both absent
(the freshly constructed state), or both present with the index holding
exactly the key sets of the collection's two dicts. -/
def SourceState.consistent (s : SourceState α β π ρ) : Prop :=
  match s.chunks, s.chunk_index with
  | none, none => True
  | some c, some ci =>
      ci.adds = c.adds.map Prod.fst ∧ ci.subs = c.subs.map Prod.fst
  | _, _ => False

/-- A sequence of `refresh()` calls at the given clock samples (the state
threaded through; any raised exception leaves the state as the method left
it, as in Python). -/
def Source.refreshMany
    (needs_refresh : SourceState α β π ρ → Except SrcErr Bool)
    (load : SourceState α β π ρ → Except SrcErr Unit × SourceState α β π ρ) :
    List Int → SourceState α β π ρ → SourceState α β π ρ
  | [], s => s
  | now :: rest, s =>
    Source.refreshMany needs_refresh load rest (Source.refresh now needs_refresh load s).2

/-! ### Concrete fixtures used to instantiate the theorems -/

/-- A small concrete chunk collection. -/
def egColl : ChunkCollection Nat Nat Unit Unit :=
  { adds := [(1, 10), (2, 20)], subs := [(5, 50)],
    find_prefix := fun _ => () }

/-- A loaded source state holding `egColl`, with a consistent index. -/
def egState : SourceState Nat Nat Unit Unit :=
  { interval := 10, last_refresh := 0, last_check := 0,
    chunks := some egColl,
    chunk_index := some { adds := [1, 2], subs := [5] },
    current_etag := none }

/-- A filesystem where the backing file is absent. -/
def egEnvMissing : FileEnv Nat Nat Unit Unit :=
  { file_exists := false, st_mtime := 0, parsed := .error "x".toList }

/-- A filesystem where the file is present but its bytes do not parse. -/
def egEnvParseFail : FileEnv Nat Nat Unit Unit :=
  { file_exists := true, st_mtime := 50, parsed := .error "bad".toList }

/-- A filesystem where the file is present and parses to `egColl`. -/
def egEnvGood : FileEnv Nat Nat Unit Unit :=
  { file_exists := true, st_mtime := 50, parsed := .ok egColl }

/-- An S3 bucket with no object under the key name. -/
def egS3Missing : S3Env Nat Nat Unit Unit := { key := none }

/-- An S3 object with etag `"abc"` whose content parses to `egColl`. -/
def egS3Good : S3Env Nat Nat Unit Unit :=
  { key := some { etag := "abc".toList, parsed := .ok egColl } }

/-! ### Helper lemmas (shared) -/

/-- The interval gate: a `refresh()` within the interval is a complete no-op. -/
theorem refresh_gated (now : Int)
    (nr : SourceState α β π ρ → Except SrcErr Bool)
    (ld : SourceState α β π ρ → Except SrcErr Unit × SourceState α β π ρ)
    (s : SourceState α β π ρ) (h : now - s.interval < s.last_check) :
    Source.refresh now nr ld s = (.ok false, s) := by
  unfold Source.refresh
  rw [if_neg (not_le.mpr h)]

/-- When the gate passes, the state `refresh()` leaves behind is either the
input with `last_check := now` (probe said fresh, or raised) or whatever state
`load` left behind (the probe said stale). -/
theorem refresh_shape_of_gate (now : Int)
    (nr : SourceState α β π ρ → Except SrcErr Bool)
    (ld : SourceState α β π ρ → Except SrcErr Unit × SourceState α β π ρ)
    (s : SourceState α β π ρ) :
    (Source.refresh now nr ld s).2 = s ∨
    (Source.refresh now nr ld s).2 = { s with last_check := now } ∨
    (Source.refresh now nr ld s).2 = (ld { s with last_check := now }).2 := by
  unfold Source.refresh
  by_cases h : now - s.interval ≥ s.last_check
  · rw [if_pos h]
    cases hnr : nr { s with last_check := now } with
    | error e => right; left; rfl
    | ok b =>
      cases b with
      | false => right; left; rfl
      | true =>
        right; right
        rcases hld : ld { s with last_check := now } with ⟨r, s2⟩
        cases r <;> simp [hld]
  · rw [if_neg h]; left; rfl

/-- When the gate passes, the state `refresh()` leaves behind is the input
with `last_check := now` (probe said fresh, or raised) or whatever state
`load` left behind (the probe said stale). -/
theorem refresh_shape_of_gate_passed (now : Int)
    (nr : SourceState α β π ρ → Except SrcErr Bool)
    (ld : SourceState α β π ρ → Except SrcErr Unit × SourceState α β π ρ)
    (s : SourceState α β π ρ) (h : s.last_check ≤ now - s.interval) :
    (Source.refresh now nr ld s).2 = { s with last_check := now } ∨
    (Source.refresh now nr ld s).2 = (ld { s with last_check := now }).2 := by
  unfold Source.refresh
  rw [if_pos h]
  cases hnr : nr { s with last_check := now } with
  | error e => left; rfl
  | ok b =>
    cases b with
    | false => left; rfl
    | true =>
      right
      rcases hld : ld { s with last_check := now } with ⟨r, s2⟩
      cases r <;> simp [hld]

/-- `_populate_chunks` preserves index/collection consistency. -/
theorem populate_chunks_consistent (t1 t2 : Int) (path : PyStr)
    (parsed : Except PyStr (ChunkCollection α β π ρ))
    (s : SourceState α β π ρ) (hs : s.consistent) :
    (Source.populate_chunks t1 t2 path parsed s).2.consistent := by
  cases parsed with
  | error e => exact hs
  | ok c => exact ⟨rfl, rfl⟩

/-- `FileSource.load` preserves index/collection consistency. -/
theorem file_load_consistent (t1 t2 : Int) (path : PyStr)
    (env : FileEnv α β π ρ) (s : SourceState α β π ρ) (hs : s.consistent) :
    (FileSource.load t1 t2 path env s).2.consistent := by
  unfold FileSource.load
  by_cases h : env.file_exists
  · rw [if_pos h]; exact populate_chunks_consistent t1 t2 path env.parsed s hs
  · rw [if_neg h]; exact hs

/-- `S3FileSource.load` preserves index/collection consistency. -/
theorem s3_load_consistent (t1 t2 : Int) (path source_url : PyStr)
    (env : S3Env α β π ρ) (s : SourceState α β π ρ) (hs : s.consistent) :
    (S3FileSource.load t1 t2 path source_url env s).2.consistent := by
  unfold S3FileSource.load
  cases hk : env.key with
  | none => exact hs
  | some k =>
    have hp := populate_chunks_consistent t1 t2 path k.parsed s hs
    rcases hpc : Source.populate_chunks t1 t2 path k.parsed s with ⟨r, s1⟩
    rw [hpc] at hp
    cases r with
    | error e => simp only [hpc]; exact hp
    | ok u => simp only [hpc]; exact hp

/-- `refresh` preserves index/collection consistency whenever `load` does
(updating `last_check` touches neither the collection nor the index). -/
theorem refresh_consistent (now : Int)
    (nr : SourceState α β π ρ → Except SrcErr Bool)
    (ld : SourceState α β π ρ → Except SrcErr Unit × SourceState α β π ρ)
    (hld : ∀ s0 : SourceState α β π ρ, s0.consistent → (ld s0).2.consistent)
    (s : SourceState α β π ρ) (hs : s.consistent) :
    (Source.refresh now nr ld s).2.consistent := by
  have hs1 : SourceState.consistent { s with last_check := now } := hs
  rcases refresh_shape_of_gate now nr ld s with h | h | h <;> rw [h]
  · exact hs
  · exact hs1
  · exact hld _ hs1

/-! ### Claim theorems -/

/-- C1: the spec claims key normalization strips every leading path separator,
so that paths `/a/b` and `//a/b` both yield key `a/b` and `//lists//mylist`
yields `lists/mylist`.  The code instead treats the *pair* returned by
`posixpath.split` as if it were the full segment list, so the stripping loop
only ever fires when the entire head element is the single character `/`,
i.e. for single-segment paths: `/a/b` keeps its leading slash, `//a/b` and
`//lists//mylist` keep two, and only `/mylist` is stripped as documented.
This contradicts both the spec and the code's own comment
("eliminate preceding slashes in the S3 key name"). -/
theorem s3_key_name_keeps_leading_slashes :
    S3FileSource.key_name "/a/b".toList = "/a/b".toList ∧
    S3FileSource.key_name "/a/b".toList ≠ "a/b".toList ∧
    S3FileSource.key_name "//a/b".toList = "//a/b".toList ∧
    S3FileSource.key_name "//lists//mylist".toList = "//lists/mylist".toList ∧
    S3FileSource.key_name "//lists//mylist".toList ≠ "lists/mylist".toList ∧
    S3FileSource.key_name "/mylist".toList = "mylist".toList := by
  refine ⟨?_, ?_, ?_, ?_, ?_, ?_⟩ <;> decide

/-- C2: a `refresh()` whose clock sample satisfies `now - last_check <
interval` returns `False` with the state untouched, for every backend probe
and loader (so neither is called); otherwise `last_check` is set to `now`
before the probe runs, and consequently a second `refresh()` within
`refreshIntervalSeconds` of a first one that performed a probe is a no-op for
every backend — at most one probe happens.  The hypothesis on `ld` states the
only facts used about a loader: it does not change `interval` and does not
move `last_check` backwards past `now1` (both hold of the concrete loaders;
`_populate_chunks` stamps `last_check` with a fresh, later clock sample). -/
theorem refresh_rate_limits_probes
    (s : SourceState α β π ρ) (now1 now2 : Int)
    (nr : SourceState α β π ρ → Except SrcErr Bool)
    (ld : SourceState α β π ρ → Except SrcErr Unit × SourceState α β π ρ)
    (hld : (ld { s with last_check := now1 }).2.interval = s.interval ∧
           now1 ≤ (ld { s with last_check := now1 }).2.last_check)
    (hwin : now2 - now1 < s.interval) :
    (now1 - s.last_check < s.interval →
      ∀ (nr0 : SourceState α β π ρ → Except SrcErr Bool) ld0,
        Source.refresh now1 nr0 ld0 s = (.ok false, s)) ∧
    (s.interval ≤ now1 - s.last_check →
      (nr { s with last_check := now1 } = .ok false →
        Source.refresh now1 nr ld s = (.ok false, { s with last_check := now1 })) ∧
      ∀ (nr2 : SourceState α β π ρ → Except SrcErr Bool) ld2,
        Source.refresh now2 nr2 ld2 (Source.refresh now1 nr ld s).2
          = (.ok false, (Source.refresh now1 nr ld s).2)) := by
  constructor
  · intro hlt nr0 ld0
    exact refresh_gated now1 nr0 ld0 s (by omega)
  · intro hgate
    constructor
    · intro hfresh
      unfold Source.refresh
      have hp : now1 - s.interval ≥ s.last_check := by omega
      rw [if_pos hp, hfresh]
    · intro nr2 ld2
      have hshape := refresh_shape_of_gate_passed now1 nr ld s (by omega)
      have hint : (Source.refresh now1 nr ld s).2.interval = s.interval := by
        rcases hshape with h | h
        · rw [h]
        · rw [h]; exact hld.1
      have hlc : now1 ≤ (Source.refresh now1 nr ld s).2.last_check := by
        rcases hshape with h | h
        · rw [h]
        · rw [h]; exact hld.2
      exact refresh_gated now2 nr2 ld2 _ (by omega)

/-- Witness for C2: with the loaded example state (interval 10, last check 0),
a first `refresh()` at time 100 passes the gate and probes; a second at 105
(within the interval) is a no-op no matter what the backend would say. -/
theorem refresh_rate_limits_probes_witness :
    Source.refresh 105 Source.needs_refresh
        (FileSource.load 100 100 "/p".toList egEnvMissing)
        (Source.refresh 100 Source.needs_refresh
          (FileSource.load 100 100 "/p".toList egEnvMissing) egState).2
      = (.ok false,
         (Source.refresh 100 Source.needs_refresh
           (FileSource.load 100 100 "/p".toList egEnvMissing) egState).2) := by
  have h := refresh_rate_limits_probes egState 100 105 Source.needs_refresh
    (FileSource.load 100 100 "/p".toList egEnvMissing) ⟨rfl, by decide⟩ (by decide)
  exact (h.2 (by decide)).2 Source.needs_refresh
    (FileSource.load 100 100 "/p".toList egEnvMissing)

/-- C10: when the gate passes and the probe (or the load) raises, the
exception propagates to the caller but `last_check` has already been advanced
to `now` — it is the only field that changed — so any further `refresh()`
within the interval of the failed attempt returns `False` without consulting
any backend: failed attempts are rate-limited exactly like successful ones. -/
theorem refresh_failure_rate_limited
    (s : SourceState α β π ρ) (now now2 : Int)
    (nr : SourceState α β π ρ → Except SrcErr Bool)
    (ld : SourceState α β π ρ → Except SrcErr Unit × SourceState α β π ρ)
    (e : SrcErr) (hgate : s.interval ≤ now - s.last_check) :
    (nr { s with last_check := now } = .error e →
      Source.refresh now nr ld s = (.error e, { s with last_check := now })) ∧
    (nr { s with last_check := now } = .ok true →
      ld { s with last_check := now } = (.error e, { s with last_check := now }) →
      Source.refresh now nr ld s = (.error e, { s with last_check := now })) ∧
    (now2 - now < s.interval →
      ∀ (nr2 : SourceState α β π ρ → Except SrcErr Bool) ld2,
        Source.refresh now2 nr2 ld2 { s with last_check := now }
          = (.ok false, { s with last_check := now })) := by
  have hp : now - s.interval ≥ s.last_check := by omega
  refine ⟨?_, ?_, ?_⟩
  · intro hnr
    unfold Source.refresh
    rw [if_pos hp, hnr]
  · intro hnr hload
    unfold Source.refresh
    rw [if_pos hp, hnr, hload]
  · intro hwin nr2 ld2
    exact refresh_gated now2 nr2 ld2 _ (by simp; omega)

/-- Witness for C10: at time 100 the example state passes the gate; a stat
probe against a vanished file raises, leaving only `last_check` changed, and
a retry at 105 is gated off.  A parse failure during the load leg behaves the
same way. -/
theorem refresh_failure_rate_limited_witness :
    Source.refresh 100 (FileSource.needs_refresh egEnvMissing)
        (FileSource.load 100 100 "/p".toList egEnvMissing) egState
      = (.error .osError, { egState with last_check := 100 }) ∧
    Source.refresh 100 (FileSource.needs_refresh egEnvParseFail)
        (FileSource.load 100 100 "/p".toList egEnvParseFail) egState
      = (.error (.parseError "Error parsing \"/p\": bad".toList),
         { egState with last_check := 100 }) ∧
    Source.refresh 105 (FileSource.needs_refresh egEnvMissing)
        (FileSource.load 105 105 "/p".toList egEnvMissing)
        { egState with last_check := 100 }
      = (.ok false, { egState with last_check := 100 }) := by
  refine ⟨?_, ?_, ?_⟩
  · exact (refresh_failure_rate_limited egState 100 105
      (FileSource.needs_refresh egEnvMissing)
      (FileSource.load 100 100 "/p".toList egEnvMissing)
      .osError (by decide)).1 rfl
  · exact (refresh_failure_rate_limited egState 100 105
      (FileSource.needs_refresh egEnvParseFail)
      (FileSource.load 100 100 "/p".toList egEnvParseFail)
      (.parseError "Error parsing \"/p\": bad".toList) (by decide)).2.1 rfl rfl
  · exact (refresh_failure_rate_limited egState 100 105
      (FileSource.needs_refresh egEnvMissing)
      (FileSource.load 100 100 "/p".toList egEnvMissing)
      .osError (by decide)).2.2 (by decide)
      (FileSource.needs_refresh egEnvMissing)
      (FileSource.load 105 105 "/p".toList egEnvMissing)

/-- C3: a failing `load()` — `NoDataError` because the resource is absent, or
`ParseError` because the bytes do not parse — returns with the entire state
exactly as it was (`chunks`, `chunk_index`, `last_check`, `last_refresh` and,
for `S3FileSource`, `current_etag`); `current_etag` is assigned the object's
etag only when the whole load succeeds. -/
theorem load_failure_preserves_state
    (t1 t2 : Int) (path source_url : PyStr)
    (envf : FileEnv α β π ρ) (envs : S3Env α β π ρ)
    (s : SourceState α β π ρ) :
    (∀ e, (FileSource.load t1 t2 path envf s).1 = .error e →
      (FileSource.load t1 t2 path envf s).2 = s) ∧
    (∀ e, (S3FileSource.load t1 t2 path source_url envs s).1 = .error e →
      (S3FileSource.load t1 t2 path source_url envs s).2 = s) ∧
    (∀ u k, (S3FileSource.load t1 t2 path source_url envs s).1 = .ok u →
      envs.key = some k →
      (S3FileSource.load t1 t2 path source_url envs s).2.current_etag = some k.etag) := by
  obtain ⟨fex, mt, fparsed⟩ := envf
  obtain ⟨key⟩ := envs
  refine ⟨?_, ?_, ?_⟩
  · intro e he
    cases fex with
    | false => rfl
    | true =>
      cases fparsed with
      | error e2 => rfl
      | ok c => exact Except.noConfusion he
  · intro e he
    cases key with
    | none => rfl
    | some k =>
      obtain ⟨ketag, kparsed⟩ := k
      cases kparsed with
      | error e2 => rfl
      | ok c => exact Except.noConfusion he
  · intro u k hu hk
    cases key with
    | none => exact Option.noConfusion hk
    | some k2 =>
      obtain ⟨ketag, kparsed⟩ := k2
      cases kparsed with
      | error e2 => exact Except.noConfusion hu
      | ok c => cases hk; rfl

/-- Witness for C3: a missing file, a missing S3 object and a successful S3
load, all against the example state. -/
theorem load_failure_preserves_state_witness :
    (FileSource.load 7 8 "/p".toList egEnvMissing egState).2 = egState ∧
    (S3FileSource.load 7 8 "/p".toList "s3://b/p".toList egS3Missing egState).2 = egState ∧
    (S3FileSource.load 7 8 "/p".toList "s3://b/p".toList egS3Good egState).2.current_etag
      = some "abc".toList := by
  refine ⟨?_, ?_, ?_⟩
  · exact (load_failure_preserves_state 7 8 "/p".toList "s3://b/p".toList
      egEnvMissing egS3Missing egState).1 _ rfl
  · exact (load_failure_preserves_state 7 8 "/p".toList "s3://b/p".toList
      egEnvMissing egS3Missing egState).2.1 _ rfl
  · exact (load_failure_preserves_state 7 8 "/p".toList "s3://b/p".toList
      egEnvMissing egS3Good egState).2.2 ()
      { etag := "abc".toList, parsed := .ok egColl } rfl rfl

/-- If every requested number is a key of the dict, the `fetch` loop returns
the record of each requested number, in request order. -/
theorem dictGetAll_ok_of_all_present {γ : Type} (d : List (Nat × γ)) (ks : List Nat)
    (h : ∀ k, k ∈ ks → (d.lookup k).isSome) :
    ∃ vs, dictGetAll d ks = .ok vs ∧
      ∀ i, vs.get? i = (ks.get? i).bind (fun k => d.lookup k) := by
  induction ks with
  | nil => exact ⟨[], rfl, fun i => by cases i <;> rfl⟩
  | cons k ks ih =>
    have hk := h k (List.mem_cons_self k ks)
    obtain ⟨v, hv⟩ := Option.isSome_iff_exists.mp hk
    obtain ⟨vs, hvs, hget⟩ := ih (fun k2 hk2 => h k2 (List.mem_cons_of_mem k hk2))
    refine ⟨v :: vs, ?_, ?_⟩
    · unfold dictGetAll
      rw [hv, hvs]
    · intro i
      cases i with
      | zero => simp [hv]
      | succ n => simpa using hget n

/-- If some requested number is missing from the dict, the `fetch` loop raises
`KeyError` for a missing requested number (the first one encountered). -/
theorem dictGetAll_error_of_missing {γ : Type} (d : List (Nat × γ)) (ks : List Nat)
    (h : ∃ k, k ∈ ks ∧ d.lookup k = none) :
    ∃ k2, dictGetAll d ks = .error (.keyError k2) ∧ k2 ∈ ks ∧ d.lookup k2 = none := by
  induction ks with
  | nil =>
    obtain ⟨k, hk, _⟩ := h
    exact absurd hk (List.not_mem_nil k)
  | cons k ks ih =>
    by_cases hk : d.lookup k = none
    · refine ⟨k, ?_, List.mem_cons_self k ks, hk⟩
      unfold dictGetAll
      rw [hk]
    · obtain ⟨v, hv⟩ := Option.ne_none_iff_exists'.mp hk
      have hrest : ∃ k0, k0 ∈ ks ∧ d.lookup k0 = none := by
        obtain ⟨k0, hk0, h0⟩ := h
        cases List.mem_cons.mp hk0 with
        | inl heq => exact absurd h0 (heq ▸ hk)
        | inr hmem => exact ⟨k0, hmem, h0⟩
      obtain ⟨k2, heq, hmem, hnone⟩ := ih hrest
      refine ⟨k2, ?_, List.mem_cons_of_mem k hmem, hnone⟩
      unfold dictGetAll
      rw [hv, heq]

/-- C4: given that the `refresh()` leg of `fetch()` returned normally and the
source is loaded (the collection after the refresh is `c`): if every requested
add and sub chunk number is a key of `c`, `fetch` returns, for each requested
number in order, the corresponding record; if some requested number is
missing, `fetch` raises a `KeyError` naming a missing requested number — no
partial or empty-filled result is returned. -/
theorem fetch_exact_or_keyerror
    (now : Int)
    (nr : SourceState α β π ρ → Except SrcErr Bool)
    (ld : SourceState α β π ρ → Except SrcErr Unit × SourceState α β π ρ)
    (addsReq subsReq : List Nat)
    (s : SourceState α β π ρ) (c : ChunkCollection α β π ρ)
    (b : Bool) (s1 : SourceState α β π ρ)
    (hr : Source.refresh now nr ld s = (.ok b, s1))
    (hc : s1.chunks = some c) :
    ((∀ k, k ∈ addsReq → (c.adds.lookup k).isSome) →
     (∀ k, k ∈ subsReq → (c.subs.lookup k).isSome) →
      ∃ la ls, Source.fetch now nr ld addsReq subsReq s = (.ok (la, ls), s1) ∧
        (∀ i, la.get? i = (addsReq.get? i).bind (fun k => c.adds.lookup k)) ∧
        (∀ i, ls.get? i = (subsReq.get? i).bind (fun k => c.subs.lookup k))) ∧
    ((∃ k, (k ∈ addsReq ∧ c.adds.lookup k = none) ∨
           (k ∈ subsReq ∧ c.subs.lookup k = none)) →
      ∃ k2, Source.fetch now nr ld addsReq subsReq s = (.error (.keyError k2), s1) ∧
        ((k2 ∈ addsReq ∧ c.adds.lookup k2 = none) ∨
         (k2 ∈ subsReq ∧ c.subs.lookup k2 = none))) := by
  constructor
  · intro ha hs2
    obtain ⟨la, hla, hga⟩ := dictGetAll_ok_of_all_present c.adds addsReq ha
    obtain ⟨ls, hls, hgs⟩ := dictGetAll_ok_of_all_present c.subs subsReq hs2
    refine ⟨la, ls, ?_, hga, hgs⟩
    simp only [Source.fetch, hr, hc, hla, hls]
  · intro hmiss
    by_cases hall : ∀ k, k ∈ addsReq → (c.adds.lookup k).isSome
    · obtain ⟨la, hla, _⟩ := dictGetAll_ok_of_all_present c.adds addsReq hall
      have hsub : ∃ k, k ∈ subsReq ∧ c.subs.lookup k = none := by
        obtain ⟨k, hk⟩ := hmiss
        cases hk with
        | inl h => exact absurd (hall k h.1) (by simp [h.2])
        | inr h => exact ⟨k, h⟩
      obtain ⟨k2, hk2eq, hk2mem, hk2none⟩ :=
        dictGetAll_error_of_missing c.subs subsReq hsub
      refine ⟨k2, ?_, Or.inr ⟨hk2mem, hk2none⟩⟩
      simp only [Source.fetch, hr, hc, hla, hk2eq]
    · push_neg at hall
      obtain ⟨k, hkmem, hknot⟩ := hall
      have hknone : c.adds.lookup k = none := by
        cases hlk : c.adds.lookup k with
        | none => rfl
        | some v => exact absurd (by simp [hlk]) hknot
      obtain ⟨k2, hk2eq, hk2mem, hk2none⟩ :=
        dictGetAll_error_of_missing c.adds addsReq ⟨k, hkmem, hknone⟩
      refine ⟨k2, ?_, Or.inl ⟨hk2mem, hk2none⟩⟩
      simp only [Source.fetch, hr, hc, hk2eq]

/-- Witness for C4: against the loaded example collection (add chunks 1 and 2,
sub chunk 5), requesting `([1, 2], [5])` yields exactly those records, and
requesting the absent add chunk 3 raises `KeyError 3`. -/
theorem fetch_exact_or_keyerror_witness :
    (∃ la ls,
      Source.fetch 100 Source.needs_refresh
          (FileSource.load 100 100 "/p".toList egEnvMissing) [1, 2] [5] egState
        = (.ok (la, ls), { egState with last_check := 100 }) ∧
        (∀ i, la.get? i = (([1, 2] : List Nat).get? i).bind (fun k => egColl.adds.lookup k)) ∧
        (∀ i, ls.get? i = (([5] : List Nat).get? i).bind (fun k => egColl.subs.lookup k))) ∧
    (∃ k2,
      Source.fetch 100 Source.needs_refresh
          (FileSource.load 100 100 "/p".toList egEnvMissing) [3] [] egState
        = (.error (.keyError k2), { egState with last_check := 100 }) ∧
        ((k2 ∈ ([3] : List Nat) ∧ egColl.adds.lookup k2 = none) ∨
         (k2 ∈ ([] : List Nat) ∧ egColl.subs.lookup k2 = none))) := by
  constructor
  · exact (fetch_exact_or_keyerror 100 Source.needs_refresh
      (FileSource.load 100 100 "/p".toList egEnvMissing) [1, 2] [5]
      egState egColl false { egState with last_check := 100 } rfl rfl).1
      (by intro k hk; fin_cases hk <;> decide)
      (by intro k hk; fin_cases hk; decide)
  · exact (fetch_exact_or_keyerror 100 Source.needs_refresh
      (FileSource.load 100 100 "/p".toList egEnvMissing) [3] []
      egState egColl false { egState with last_check := 100 } rfl rfl).2
      ⟨3, Or.inl ⟨by decide, by decide⟩⟩

/-- `fetch()` hands back exactly the state its `refresh()` leg left behind:
the lookup phase reads but never writes. -/
theorem fetch_state_eq_refresh_state (now : Int)
    (nr : SourceState α β π ρ → Except SrcErr Bool)
    (ld : SourceState α β π ρ → Except SrcErr Unit × SourceState α β π ρ)
    (addsReq subsReq : List Nat) (s : SourceState α β π ρ) :
    (Source.fetch now nr ld addsReq subsReq s).2 = (Source.refresh now nr ld s).2 := by
  unfold Source.fetch
  split
  · rename_i e s1 heq
    rw [heq]
  · rename_i b s1 heq
    rw [heq]
    split
    · rfl
    · split
      · rfl
      · split
        · rfl
        · rfl

/-- `list_chunks()` hands back exactly the state its `refresh()` leg left
behind. -/
theorem list_chunks_state_eq_refresh_state (now : Int)
    (nr : SourceState α β π ρ → Except SrcErr Bool)
    (ld : SourceState α β π ρ → Except SrcErr Unit × SourceState α β π ρ)
    (s : SourceState α β π ρ) :
    (Source.list_chunks now nr ld s).2 = (Source.refresh now nr ld s).2 := by
  unfold Source.list_chunks
  split
  · rename_i e s1 heq
    rw [heq]
  · rename_i b s1 heq
    rw [heq]
    split
    · rfl
    · rfl

/-- C5: after a successful `load()` the chunk index holds exactly the key sets
of the loaded collection's two dicts (for both backends), and consistency of
`chunk_index` with `chunks` — established by `_populate_chunks`, which
replaces them together — is preserved by every operation a caller can invoke,
provided the loader preserves it (as both concrete loaders do, per the
first two conjuncts). -/
theorem chunk_index_matches_chunks
    (t1 t2 now : Int) (path source_url : PyStr) (p : π)
    (envf : FileEnv α β π ρ) (envs : S3Env α β π ρ)
    (nr : SourceState α β π ρ → Except SrcErr Bool)
    (ld : SourceState α β π ρ → Except SrcErr Unit × SourceState α β π ρ)
    (addsReq subsReq : List Nat)
    (s : SourceState α β π ρ) (hs : s.consistent)
    (hld : ∀ s0 : SourceState α β π ρ, s0.consistent → (ld s0).2.consistent) :
    (∀ u, (FileSource.load t1 t2 path envf s).1 = .ok u →
      ∃ c, (FileSource.load t1 t2 path envf s).2.chunks = some c ∧
        (FileSource.load t1 t2 path envf s).2.chunk_index =
          some { adds := c.adds.map Prod.fst, subs := c.subs.map Prod.fst }) ∧
    (∀ u, (S3FileSource.load t1 t2 path source_url envs s).1 = .ok u →
      ∃ c, (S3FileSource.load t1 t2 path source_url envs s).2.chunks = some c ∧
        (S3FileSource.load t1 t2 path source_url envs s).2.chunk_index =
          some { adds := c.adds.map Prod.fst, subs := c.subs.map Prod.fst }) ∧
    (FileSource.load t1 t2 path envf s).2.consistent ∧
    (S3FileSource.load t1 t2 path source_url envs s).2.consistent ∧
    (Source.refresh now nr ld s).2.consistent ∧
    (Source.fetch now nr ld addsReq subsReq s).2.consistent ∧
    (Source.list_chunks now nr ld s).2.consistent ∧
    ( Source.find_prefix p s).2 = s := by
  have hfetch := fetch_state_eq_refresh_state now nr ld addsReq subsReq s
  have hlist := list_chunks_state_eq_refresh_state now nr ld s
  refine ⟨?_, ?_, file_load_consistent t1 t2 path envf s hs,
    s3_load_consistent t1 t2 path source_url envs s hs,
    refresh_consistent now nr ld hld s hs, ?_, ?_, ?_⟩
  · intro u hu
    obtain ⟨fex, mt, fparsed⟩ := envf
    cases fex with
    | false => exact Except.noConfusion hu
    | true =>
      cases fparsed with
      | error e2 => exact Except.noConfusion hu
      | ok c => exact ⟨c, rfl, rfl⟩
  · intro u hu
    obtain ⟨key⟩ := envs
    cases key with
    | none => exact Except.noConfusion hu
    | some k =>
      obtain ⟨ketag, kparsed⟩ := k
      cases kparsed with
      | error e2 => exact Except.noConfusion hu
      | ok c => exact ⟨c, rfl, rfl⟩
  · rw [hfetch]; exact refresh_consistent now nr ld hld s hs
  · rw [hlist]; exact refresh_consistent now nr ld hld s hs
  · unfold Source.find_prefix
    cases s.chunks with
    | none => rfl
    | some c => rfl

/-- Witness for C5: a successful file load installs `egColl` with index
`adds = [1, 2]`, `subs = [5]`, and a full refresh through the file backend
keeps the example state consistent. -/
theorem chunk_index_matches_chunks_witness :
    (∃ c, (FileSource.load 7 8 "/p".toList egEnvGood egState).2.chunks = some c ∧
      (FileSource.load 7 8 "/p".toList egEnvGood egState).2.chunk_index =
        some { adds := c.adds.map Prod.fst, subs := c.subs.map Prod.fst }) ∧
    (Source.refresh 100 (FileSource.needs_refresh egEnvGood)
        (FileSource.load 100 100 "/p".toList egEnvGood) egState).2.consistent := by
  have h := chunk_index_matches_chunks 7 8 100 "/p".toList "s3://b/p".toList ()
    egEnvGood egS3Good (FileSource.needs_refresh egEnvGood)
    (FileSource.load 100 100 "/p".toList egEnvGood) [1] [5] egState
    ⟨rfl, rfl⟩ (fun s0 h0 => file_load_consistent 100 100 "/p".toList egEnvGood s0 h0)
  exact ⟨h.1 () rfl, h.2.2.2.2.1⟩

/-- C6: `FileSource.needs_refresh()` (when the file still exists, so that
`os.stat` succeeds) answers `True` exactly when the file's truncated
modification timestamp is strictly greater than `last_refresh`, and `False`
whenever the timestamp is at most `last_refresh`. -/
theorem file_needs_refresh_iff_mtime_newer
    (env : FileEnv α β π ρ) (s : SourceState α β π ρ)
    (hex : env.file_exists = true) :
    (FileSource.needs_refresh env s = .ok true ↔ s.last_refresh < env.st_mtime) ∧
    (env.st_mtime ≤ s.last_refresh → FileSource.needs_refresh env s = .ok false) := by
  unfold FileSource.needs_refresh
  rw [hex]
  constructor
  · by_cases h : env.st_mtime ≤ s.last_refresh
    · rw [if_pos rfl, if_pos h]
      constructor
      · intro habs; exact absurd habs (by simp)
      · intro hlt; omega
    · rw [if_pos rfl, if_neg h]
      constructor
      · intro _; omega
      · intro _; rfl
  · intro h
    rw [if_pos rfl, if_pos h]

/-- Witness for C6: a file modified at time 50 is stale for a source last
reloaded at 0, and fresh for one last reloaded at 50. -/
theorem file_needs_refresh_iff_mtime_newer_witness :
    FileSource.needs_refresh egEnvGood egState = .ok true ∧
    FileSource.needs_refresh egEnvGood { egState with last_refresh := 50 } = .ok false := by
  constructor
  · exact (file_needs_refresh_iff_mtime_newer egEnvGood egState rfl).1.mpr (by decide)
  · exact (file_needs_refresh_iff_mtime_newer egEnvGood
      { egState with last_refresh := 50 } rfl).2 (by decide)

/-- C7: `S3FileSource.needs_refresh()` (when the backend reports an object,
with etag `k.etag`) answers `True` exactly when the stored `current_etag`
differs from the reported etag; in particular a `None` `current_etag` (the
state before any successful load) is always stale, a matching etag answers
`False`, and a successful `load()` records the loaded object's etag. -/
theorem s3_needs_refresh_iff_etag_differs
    (env : S3Env α β π ρ) (k : S3Key α β π ρ) (s : SourceState α β π ρ)
    (t1 t2 : Int) (path source_url : PyStr)
    (hk : env.key = some k) :
    (S3FileSource.needs_refresh env s = .ok true ↔ s.current_etag ≠ some k.etag) ∧
    (s.current_etag = none → S3FileSource.needs_refresh env s = .ok true) ∧
    (s.current_etag = some k.etag → S3FileSource.needs_refresh env s = .ok false) ∧
    (∀ u, (S3FileSource.load t1 t2 path source_url env s).1 = .ok u →
      (S3FileSource.load t1 t2 path source_url env s).2.current_etag = some k.etag) := by
  have hred : S3FileSource.needs_refresh env s
      = if some k.etag = s.current_etag then .ok false else .ok true := by
    unfold S3FileSource.needs_refresh
    rw [hk]
  have hiff : S3FileSource.needs_refresh env s = .ok true ↔ s.current_etag ≠ some k.etag := by
    rw [hred]
    by_cases he : some k.etag = s.current_etag
    · rw [if_pos he]
      constructor
      · intro habs; exact absurd habs (by simp)
      · intro hne; exact absurd he.symm hne
    · rw [if_neg he]
      constructor
      · intro _ habs; exact he habs.symm
      · intro _; rfl
  refine ⟨hiff, ?_, ?_, ?_⟩
  · intro hnone
    exact hiff.mpr (by rw [hnone]; exact Option.noConfusion)
  · intro heq
    rw [hred, if_pos heq.symm]
  · intro u hu
    obtain ⟨key⟩ := env
    cases key with
    | none => exact Option.noConfusion hk
    | some k2 =>
      obtain ⟨ketag, kparsed⟩ := k2
      cases kparsed with
      | error e2 => exact Except.noConfusion hu
      | ok c =>
        cases hk
        rfl

/-- Witness for C7: with no stored etag the probe reports stale; after a
successful load of the object with etag `"abc"` the etag is recorded, and a
probe against the same etag reports fresh. -/
theorem s3_needs_refresh_iff_etag_differs_witness :
    S3FileSource.needs_refresh egS3Good egState = .ok true ∧
    (S3FileSource.load 7 8 "/p".toList "s3://b/p".toList egS3Good egState).2.current_etag
      = some "abc".toList ∧
    S3FileSource.needs_refresh egS3Good
      { egState with current_etag := some "abc".toList } = .ok false := by
  have h := s3_needs_refresh_iff_etag_differs egS3Good
    { etag := "abc".toList, parsed := .ok egColl } egState 7 8
    "/p".toList "s3://b/p".toList rfl
  have h2 := s3_needs_refresh_iff_etag_differs egS3Good
    { etag := "abc".toList, parsed := .ok egColl }
    { egState with current_etag := some "abc".toList } 7 8
    "/p".toList "s3://b/p".toList rfl
  exact ⟨h.2.1 rfl, h.2.2.2 () rfl, h2.2.2.1 rfl⟩

/-- C8: against a backend whose staleness probe answers `False` — the base
class's default `needs_refresh` is one such, as the first conjunct records —
any number of repeated `refresh()` calls leaves `chunks`, `chunk_index` and
`last_refresh` (indeed every field but `last_check`) unchanged, each call
returning `False`; only `last_check` can move. -/
theorem refresh_noop_when_not_stale
    (nr : SourceState α β π ρ → Except SrcErr Bool)
    (ld : SourceState α β π ρ → Except SrcErr Unit × SourceState α β π ρ)
    (hnr : ∀ s0 : SourceState α β π ρ, nr s0 = .ok false)
    (ts : List Int) (now : Int) (s : SourceState α β π ρ) :
    (∀ s0 : SourceState α β π ρ,
      Source.needs_refresh s0 = (.ok false : Except SrcErr Bool)) ∧
    (Source.refresh now nr ld s).1 = .ok false ∧
    (∃ lc, Source.refreshMany nr ld ts s = { s with last_check := lc }) ∧
    (Source.refreshMany nr ld ts s).chunks = s.chunks ∧
    (Source.refreshMany nr ld ts s).chunk_index = s.chunk_index ∧
    (Source.refreshMany nr ld ts s).last_refresh = s.last_refresh := by
  have hstep : ∀ (n : Int) (s0 : SourceState α β π ρ),
      Source.refresh n nr ld s0 = (.ok false, s0) ∨
      Source.refresh n nr ld s0 = (.ok false, { s0 with last_check := n }) := by
    intro n s0
    unfold Source.refresh
    by_cases h : n - s0.interval ≥ s0.last_check
    · right
      rw [if_pos h, hnr]
    · left
      rw [if_neg h]
  have hmany : ∀ (l : List Int) (s0 : SourceState α β π ρ),
      ∃ lc, Source.refreshMany nr ld l s0 = { s0 with last_check := lc } := by
    intro l
    induction l with
    | nil => intro s0; exact ⟨s0.last_check, rfl⟩
    | cons n rest ih =>
      intro s0
      rcases hstep n s0 with h | h
      · obtain ⟨lc, hlc⟩ := ih s0
        refine ⟨lc, ?_⟩
        unfold Source.refreshMany
        rw [h]
        exact hlc
      · obtain ⟨lc, hlc⟩ := ih { s0 with last_check := n }
        refine ⟨lc, ?_⟩
        unfold Source.refreshMany
        rw [h, hlc]
  have hall : ∃ lc, Source.refreshMany nr ld ts s = { s with last_check := lc } :=
    hmany ts s
  obtain ⟨lc, hlc⟩ := hall
  refine ⟨fun s0 => rfl, ?_, ⟨lc, hlc⟩, ?_, ?_, ?_⟩
  · rcases hstep now s with h | h <;> rw [h]
  · rw [hlc]
  · rw [hlc]
  · rw [hlc]

/-- Witness for C8: three repeated refreshes through the never-stale default
probe leave the loaded example state's data fields untouched. -/
theorem refresh_noop_when_not_stale_witness :
    (Source.refresh 100 Source.needs_refresh
        (FileSource.load 100 100 "/p".toList egEnvGood) egState).1 = .ok false ∧
    (Source.refreshMany Source.needs_refresh
        (FileSource.load 100 100 "/p".toList egEnvGood)
        [100, 103, 106] egState).chunks = egState.chunks ∧
    (Source.refreshMany Source.needs_refresh
        (FileSource.load 100 100 "/p".toList egEnvGood)
        [100, 103, 106] egState).chunk_index = egState.chunk_index ∧
    (Source.refreshMany Source.needs_refresh
        (FileSource.load 100 100 "/p".toList egEnvGood)
        [100, 103, 106] egState).last_refresh = egState.last_refresh := by
  have h := refresh_noop_when_not_stale Source.needs_refresh
    (FileSource.load 100 100 "/p".toList egEnvGood) (fun s0 => rfl)
    [100, 103, 106] 100 egState
  exact ⟨h.2.1, h.2.2.2.1, h.2.2.2.2.1, h.2.2.2.2.2⟩

/-- C9: `find_prefix()` takes no clock sample and consults no backend (its
signature here has no environment at all); it answers straight from the
currently loaded collection's prefix lookup and returns the state bit-for-bit
unchanged — whereas `fetch()` and `list_chunks()` run `refresh()` first and
hand back whatever state that refresh produced. -/
theorem find_prefix_no_refresh
    (p : π) (s : SourceState α β π ρ) (c : ChunkCollection α β π ρ)
    (hc : s.chunks = some c)
    (now : Int)
    (nr : SourceState α β π ρ → Except SrcErr Bool)
    (ld : SourceState α β π ρ → Except SrcErr Unit × SourceState α β π ρ)
    (addsReq subsReq : List Nat) :
    ( Source.find_prefix p s).2 = s ∧
    ( Source.find_prefix p s).1 = .ok ( ChunkCollection.find_prefix c p) ∧
    (Source.fetch now nr ld addsReq subsReq s).2 = (Source.refresh now nr ld s).2 ∧
    (Source.list_chunks now nr ld s).2 = (Source.refresh now nr ld s).2 := by
  refine ⟨?_, ?_, fetch_state_eq_refresh_state now nr ld addsReq subsReq s,
    list_chunks_state_eq_refresh_state now nr ld s⟩
  · unfold Source.find_prefix
    rw [hc]
  · unfold Source.find_prefix
    rw [hc]

/-- Witness for C9: a prefix query against the loaded example state answers
from the collection and leaves the state unchanged. -/
theorem find_prefix_no_refresh_witness :
    ( Source.find_prefix () egState).2 = egState ∧
    ( Source.find_prefix () egState).1 = .ok ( ChunkCollection.find_prefix egColl ()) := by
  have h := find_prefix_no_refresh () egState egColl rfl 100 Source.needs_refresh
    (FileSource.load 100 100 "/p".toList egEnvGood) [1] [5]
  exact ⟨h.1, h.2.1⟩
